import Mathlib

/-!
Shallow embedding of the Resource Discovery & Aggregation Pipeline of the
HR_agent_for_job repository.

Sources embedded:
  * src/domain/entities.py                      (ResourceType, Resource)
  * src/infrastructure/searcher/web_searcher.py (the six parsers,
    WebSearcher.find_resources_for_skill)
  * src/infrastructure/vector_store/chroma_store.py (ChromaVectorStore.search:
    every internal failure is caught and an empty list is returned)
  * src/infrastructure/repositories/resource_repository.py
    (VectorResourceRepository.search_by_skill: per-result conversion failures
    are caught and the result skipped)
  * src/application/services/career_service.py
    (CareerService._find_resources_for_skills)

External effects (network fetches, the chromadb client, save_batch) are
modelled as environment inputs: the HTML/JSON payloads arrive already
decomposed into the element lists that BeautifulSoup's find_all/find calls
would produce, and the store is a function from query to outcome.
-/

namespace HR

/-- Decidable equality of `Except` values, used to evaluate the model on the
concrete inputs of the examples below. -/
instance instDecEqExcept {ε α : Type} [DecidableEq ε] [DecidableEq α] :
    DecidableEq (Except ε α)
  | Except.ok a, Except.ok b =>
      if h : a = b then isTrue (by rw [h]) else
        isFalse (by intro hh; injection hh; contradiction)
  | Except.ok _, Except.error _ => isFalse (fun hh => Except.noConfusion hh)
  | Except.error _, Except.ok _ => isFalse (fun hh => Except.noConfusion hh)
  | Except.error e, Except.error f =>
      if h : e = f then isTrue (by rw [h]) else
        isFalse (by intro hh; injection hh; contradiction)

/-- `ResourceType` enum of src/domain/entities.py. -/
inductive ResourceType where
  | course
  | article
  | vacancy
  | project
  | competition
deriving DecidableEq, Repr

/-- `Resource` dataclass of src/domain/entities.py.  `metadata` is modelled by
its two used keys (`source`, and `stars` for github results); `created_at`
(wall-clock time) is out of the model. -/
structure Resource where
  id : Option String := none
  title : String := ""
  url : String := ""
  description : String := ""
  resource_type : ResourceType := ResourceType.course
  skill : String := ""
  source : String := ""
  stars : Option Nat := none
deriving DecidableEq, Repr

/-- A BeautifulSoup tag as the parsers consume it: its text content
(`get_text().strip()` is applied by the parsers themselves, so `text` is the
raw text) and its optional `href` attribute.  In Python, `tag['href']` raises
`KeyError` when the attribute is absent. -/
structure ATag where
  text : String
  href : Option String
deriving DecidableEq, Repr

/-- `tag['href']` — KeyError when the attribute is absent. -/
def hrefAttr (t : ATag) : Except String String :=
  match t.href with
  | some h => Except.ok h
  | none => Except.error "KeyError: href"

/-- One `<h2 class="card-title">` hit of Coursera's result page: its text and
its `find_parent('a')` (absent when the heading has no anchor ancestor). -/
structure CourseraEntry where
  text : String
  parentA : Option ATag
deriving DecidableEq, Repr

/-- One `<article class="post">` hit of Habr's search page: the text of its
first `<h2>` (if any) and its `find('a', class_='post__title_link')`. -/
structure ArticleEntry where
  h2text : Option String
  linkA : Option ATag
deriving DecidableEq, Repr

/-- One `<div class="vacancy-card__title">` hit of Habr Career: its
`find('a')`. -/
structure VacancyCard where
  titleA : Option ATag
deriving DecidableEq, Repr

/-- One repository object of the GitHub search response. -/
structure GithubRepo where
  name : Option String := none
  html_url : Option String := none
  description : Option String := none
  stargazers_count : Option Nat := none
deriving DecidableEq, Repr

/-- One `<div class="competition-card__header">` hit of Kaggle: the text of its
`find('div', class_='title')` and its `find_parent('a')`. -/
structure KaggleCard where
  titleDiv : Option String
  parentA : Option ATag
deriving DecidableEq, Repr

/-- Python's `str.strip()`: drop leading and trailing whitespace.  (Lean's
`String.trim` is defined through well-founded recursion and does not reduce
in the kernel, so the model uses this structurally recursive equivalent.) -/
def pyStrip (s : String) : String :=
  String.mk (((s.data.dropWhile Char.isWhitespace).reverse.dropWhile
    Char.isWhitespace).reverse)

namespace WebSearcher

/-- Link computation of `parse_courses_from_coursera`:
`"https://www.coursera.org" + link_tag['href'] if link_tag else ""`.
The attribute access happens before the title test, so a parent anchor
without `href` raises even for an empty title. -/
def courseraLink (e : CourseraEntry) : Except String String :=
  match e.parentA with
  | some a => Except.map (fun h => "https://www.coursera.org" ++ h) (hrefAttr a)
  | none => Except.ok ""

/-- Loop body of `parse_courses_from_coursera` (web_searcher.py lines 54-64). -/
def courseraLoop : List CourseraEntry → Except String (List Resource)
  | [] => Except.ok []
  | e :: es => do
      let title := pyStrip e.text
      let link ← courseraLink e
      let rest ← courseraLoop es
      if title ≠ "" then
        Except.ok ({ title := title, url := link,
                     resource_type := ResourceType.course,
                     source := "coursera" } :: rest)
      else
        Except.ok rest

/-- `WebSearcher.parse_courses_from_coursera` (web_searcher.py lines 49-65).
The input is the `find_all('h2', class_='card-title')` list. -/
def parse_courses_from_coursera (results : List CourseraEntry) :
    Except String (List Resource) :=
  courseraLoop (results.take 3)

/-- Loop body of `parse_courses_from_stepik` (web_searcher.py lines 72-80):
`link = "https://stepik.org" + res['href']`, candidate appended with no title
test. -/
def stepikLoop : List ATag → Except String (List Resource)
  | [] => Except.ok []
  | a :: as => do
      let title := pyStrip a.text
      let href ← hrefAttr a
      let rest ← stepikLoop as
      Except.ok ({ title := title, url := "https://stepik.org" ++ href,
                   resource_type := ResourceType.course,
                   source := "stepik" } :: rest)

/-- `WebSearcher.parse_courses_from_stepik` (web_searcher.py lines 67-81).
The input is the `find_all('a', class_='course-card__title')` list. -/
def parse_courses_from_stepik (results : List ATag) :
    Except String (List Resource) :=
  stepikLoop (results.take 3)

/-- Link computation of `parse_articles_from_habr`:
`link_tag['href'] if link_tag else ""`. -/
def habrArticleLink (e : ArticleEntry) : Except String String :=
  match e.linkA with
  | some a => hrefAttr a
  | none => Except.ok ""

/-- Loop body of `parse_articles_from_habr` (web_searcher.py lines 88-98). -/
def habrArticlesLoop : List ArticleEntry → Except String (List Resource)
  | [] => Except.ok []
  | e :: es => do
      let title := match e.h2text with
        | some t => pyStrip t
        | none => "Статья"
      let link ← habrArticleLink e
      let rest ← habrArticlesLoop es
      Except.ok ({ title := title, url := link,
                   resource_type := ResourceType.article,
                   source := "habr" } :: rest)

/-- `WebSearcher.parse_articles_from_habr` (web_searcher.py lines 83-99). -/
def parse_articles_from_habr (results : List ArticleEntry) :
    Except String (List Resource) :=
  habrArticlesLoop (results.take 3)

/-- Link computation of `parse_vacancies_from_habr`:
`"https://career.habr.com" + title_tag['href'] if title_tag else ""`. -/
def habrVacancyLink (c : VacancyCard) : Except String String :=
  match c.titleA with
  | some a => Except.map (fun h => "https://career.habr.com" ++ h) (hrefAttr a)
  | none => Except.ok ""

/-- Loop body of `parse_vacancies_from_habr` (web_searcher.py lines 106-115):
title falls back to a placeholder. -/
def habrVacanciesLoop : List VacancyCard → Except String (List Resource)
  | [] => Except.ok []
  | c :: cs => do
      let title := match c.titleA with
        | some a => pyStrip a.text
        | none => "Вакансия"
      let link ← habrVacancyLink c
      let rest ← habrVacanciesLoop cs
      Except.ok ({ title := title, url := link,
                   resource_type := ResourceType.vacancy,
                   source := "habr_career" } :: rest)

/-- `WebSearcher.parse_vacancies_from_habr` (web_searcher.py lines 101-116). -/
def parse_vacancies_from_habr (cards : List VacancyCard) :
    Except String (List Resource) :=
  habrVacanciesLoop (cards.take 3)

/-- `WebSearcher.parse_projects_from_github` (web_searcher.py lines 118-130).
`json_data.get('items', [])` is the `Option` on the input; every field is read
with a defaulting `.get`, so this parser is total. -/
def parse_projects_from_github (json_items : Option (List GithubRepo)) :
    List Resource :=
  ((json_items.getD []).take 3).map fun repo =>
    { title := repo.name.getD "", url := repo.html_url.getD "",
      description := repo.description.getD "",
      resource_type := ResourceType.project,
      source := "github", stars := some (repo.stargazers_count.getD 0) }

/-- Link computation of `parse_competitions_from_kaggle`:
`"https://www.kaggle.com" + link_tag['href'] if link_tag else ""`. -/
def kaggleLink (c : KaggleCard) : Except String String :=
  match c.parentA with
  | some a => Except.map (fun h => "https://www.kaggle.com" ++ h) (hrefAttr a)
  | none => Except.ok ""

/-- Loop body of `parse_competitions_from_kaggle` (web_searcher.py 137-147). -/
def kaggleLoop : List KaggleCard → Except String (List Resource)
  | [] => Except.ok []
  | c :: cs => do
      let title := match c.titleDiv with
        | some t => pyStrip t
        | none => "Competition"
      let link ← kaggleLink c
      let rest ← kaggleLoop cs
      Except.ok ({ title := title, url := link,
                   resource_type := ResourceType.competition,
                   source := "kaggle" } :: rest)

/-- `WebSearcher.parse_competitions_from_kaggle` (web_searcher.py 132-148). -/
def parse_competitions_from_kaggle (cards : List KaggleCard) :
    Except String (List Resource) :=
  kaggleLoop (cards.take 3)

end WebSearcher

/-- Result dictionary of `WebSearcher.find_resources_for_skill`
(web_searcher.py lines 220-226): the five per-category lists. -/
structure WebResult where
  courses : List Resource
  articles : List Resource
  vacancies : List Resource
  projects : List Resource
  competitions : List Resource
deriving DecidableEq, Repr

/-- `resource.skill = skill` (web_searcher.py lines 212-213): the loop mutates
every parsed resource in place; the category lists alias the same objects, so
the stamp shows in the returned dictionary. -/
def stampSkill (skill : String) (r : Resource) : Resource :=
  { r with skill := skill }

/-- The per-skill fan-out environment: the element lists BeautifulSoup's
find_all calls produce on the six fetched payloads, plus the outcome of
`SemanticStore.save_batch`.  A fetch failure or non-2xx yields an empty page
text (fetch_text catches and returns ""), hence empty element lists; a failed
GitHub call yields `none` for the items (the `get('items', [])` default). -/
structure WebEnv where
  coursera : List CourseraEntry
  stepik : List ATag
  habrArticles : List ArticleEntry
  habrVacancies : List VacancyCard
  github : Option (List GithubRepo)
  kaggle : List KaggleCard
  saveBatchOutcome : List Resource → Except String (List String)

namespace WebSearcher

/-- `WebSearcher.find_resources_for_skill` (web_searcher.py lines 150-226):
parse the six payloads (a parser's KeyError propagates — there is no catch
inside this method), stamp the skill, and if any resource was produced, await
`save_batch` — whose failure also propagates, before the dictionary is
returned. -/
def find_resources_for_skill (env : WebEnv) (skill : String) :
    Except String WebResult := do
  let courses ← parse_courses_from_coursera env.coursera
  let coursesStepik ← parse_courses_from_stepik env.stepik
  let courses := courses ++ coursesStepik
  let articles ← parse_articles_from_habr env.habrArticles
  let vacancies ← parse_vacancies_from_habr env.habrVacancies
  let projects := parse_projects_from_github env.github
  let competitions ← parse_competitions_from_kaggle env.kaggle
  let courses := courses.map (stampSkill skill)
  let articles := articles.map (stampSkill skill)
  let vacancies := vacancies.map (stampSkill skill)
  let projects := projects.map (stampSkill skill)
  let competitions := competitions.map (stampSkill skill)
  let all_resources :=
    courses ++ articles ++ vacancies ++ projects ++ competitions
  if all_resources ≠ [] then do
    let _ ← env.saveBatchOutcome all_resources
    Except.ok ⟨courses, articles, vacancies, projects, competitions⟩
  else
    Except.ok ⟨courses, articles, vacancies, projects, competitions⟩

end WebSearcher

/-- Outcome of the body of `ChromaVectorStore.search`
(chroma_store.py lines 100-136) for one query: either the formatted result
list — each entry paired with the outcome of its later conversion by
`_metadata_to_resource` — or the exception the chromadb client raised. -/
abbrev RawSearchOutcome : Type :=
  Except String (List (Except String Resource))

/-- The semantic-store environment: the raw outcome of the vector store's
search per skill and per resource type (career_service.py always passes
`limit=5`, which is forwarded to the store as `n_results`; the environment's
answer is the store's response to that query). -/
structure StoreEnv where
  rawSearch : String → ResourceType → RawSearchOutcome

/-- `ChromaVectorStore.search` (chroma_store.py lines 100-136): the whole body
is wrapped in `try/except`, every failure is logged and an empty list is
returned. -/
def chromaSearch (raw : RawSearchOutcome) : List (Except String Resource) :=
  match raw with
  | Except.ok rs => rs
  | Except.error _ => []

/-- `VectorResourceRepository.search_by_skill`
(resource_repository.py lines 126-152): formats the store's answer, converting
each result's metadata and skipping (with a logged error) any result whose
conversion raises. -/
def search_by_skill (store : StoreEnv) (skill : String) (rt : ResourceType) :
    List Resource :=
  (chromaSearch (store.rawSearch skill rt)).filterMap fun r =>
    match r with
    | Except.ok res => some res
    | Except.error _ => none

/-- The environment of `CareerService._find_resources_for_skills`: the store,
and the web searcher (`none` models `web_searcher=None`; otherwise the
per-skill fan-out environment). -/
structure Env where
  store : StoreEnv
  web : Option (String → WebEnv)

namespace CareerService

/-- The four per-category lists a single loop iteration of
`_find_resources_for_skills` accumulates (the dictionary's `vacancies` key is
never extended). -/
structure SkillLists where
  courses : List Resource
  articles : List Resource
  projects : List Resource
  competitions : List Resource
deriving DecidableEq, Repr

/-- One iteration of the skill loop (career_service.py lines 201-233): the
four store lookups, the `< 5 and self.web_searcher` fallback gate, the
`try/except` around the web call (an exception is logged and the four extends
are skipped).  The boolean records whether the web fan-out was invoked. -/
def skillLists (env : Env) (skill : String) : SkillLists × Bool :=
  let courses := search_by_skill env.store skill ResourceType.course
  let articles := search_by_skill env.store skill ResourceType.article
  let projects := search_by_skill env.store skill ResourceType.project
  let competitions := search_by_skill env.store skill ResourceType.competition
  match env.web with
  | some webFor =>
      if courses.length + articles.length + projects.length +
          competitions.length < 5 then
        match WebSearcher.find_resources_for_skill (webFor skill) skill with
        | Except.ok wr =>
            (⟨courses ++ wr.courses, articles ++ wr.articles,
              projects ++ wr.projects, competitions ++ wr.competitions⟩, true)
        | Except.error _ =>
            (⟨courses, articles, projects, competitions⟩, true)
      else
        (⟨courses, articles, projects, competitions⟩, false)
  | none => (⟨courses, articles, projects, competitions⟩, false)

/-- The accumulator dictionary, in Python dict insertion order. -/
abbrev Buckets := List (String × List Resource)

/-- `resources_by_category` initialisation (career_service.py lines 193-199). -/
def initBuckets : Buckets :=
  [("courses", []), ("articles", []), ("vacancies", []),
   ("projects", []), ("competitions", [])]

/-- `resources_by_category[k].extend(xs)`: keys are untouched, the value at
`k` grows at its end. -/
def extendAt (m : Buckets) (k : String) (xs : List Resource) : Buckets :=
  m.map fun kv => if kv.1 = k then (kv.1, kv.2 ++ xs) else kv

/-- The skill loop of `_find_resources_for_skills` (career_service.py lines
201-238), also tracking (in order) the skills for which the web fan-out was
invoked. -/
def accumulate (env : Env) : List String → Buckets → Buckets × List String
  | [], acc => (acc, [])
  | skill :: rest, acc =>
      let (ls, invoked) := skillLists env skill
      let acc := extendAt acc "courses" ls.courses
      let acc := extendAt acc "articles" ls.articles
      let acc := extendAt acc "projects" ls.projects
      let acc := extendAt acc "competitions" ls.competitions
      let (res, log) := accumulate env rest acc
      (res, (if invoked then [skill] else []) ++ log)

/-- The dedup loop body (career_service.py lines 243-247) for one category's
list, threaded with the `seen_urls` set (modelled as a list with membership):
a resource is kept iff its url is non-empty and unseen, and every kept url is
added to the set. -/
def dedupList (seen : List String) : List Resource → List Resource × List String
  | [] => ([], seen)
  | r :: rs =>
      if r.url ≠ "" ∧ r.url ∉ seen then
        let (kept, seen') := dedupList (r.url :: seen) rs
        (r :: kept, seen')
      else
        dedupList seen rs

/-- The dedup pass over the dictionary (career_service.py lines 240-248):
`seen_urls` is created once and shared across the categories, which are
visited in dict insertion order; each category's deduped list is truncated to
10. -/
def dedupBuckets (seen : List String) : Buckets → Buckets
  | [] => []
  | (k, rs) :: rest =>
      let (kept, seen') := dedupList seen rs
      (k, kept.take 10) :: dedupBuckets seen' rest

/-- `CareerService._find_resources_for_skills` (career_service.py lines
188-250), paired with the web-invocation log. -/
def findResourcesWithLog (env : Env) (skills : List String) :
    Buckets × List String :=
  let (acc, log) := accumulate env skills initBuckets
  (dedupBuckets [] acc, log)

/-- `CareerService._find_resources_for_skills`: the returned dictionary. -/
def find_resources_for_skills (env : Env) (skills : List String) : Buckets :=
  (findResourcesWithLog env skills).1

/-- `storeCount` of the spec: the combined number of candidates the store
returned for the four queried categories of one skill
(career_service.py line 225). -/
def storeCount (env : Env) (skill : String) : Nat :=
  (search_by_skill env.store skill ResourceType.course).length +
  (search_by_skill env.store skill ResourceType.article).length +
  (search_by_skill env.store skill ResourceType.project).length +
  (search_by_skill env.store skill ResourceType.competition).length

end CareerService

/-! ### Concrete environments used by counterexamples and witnesses -/

/-- A store answering every query with an empty result. -/
def emptyStore : StoreEnv := ⟨fun _ _ => Except.ok []⟩

/-- A quiet fan-out environment: every fetched page is empty, persistence
succeeds. -/
def emptyWebEnv : WebEnv := ⟨[], [], [], [], none, [], fun _ => Except.ok []⟩

/-- A stored course whose url is `"u"`. -/
def courseU : Resource :=
  { title := "c", url := "u", resource_type := ResourceType.course }

/-- A stored article whose url is also `"u"`. -/
def articleU : Resource :=
  { title := "a", url := "u", resource_type := ResourceType.article }

/-- Store holding `courseU` and `articleU` (same url, different categories),
no web searcher. -/
def envBothU : Env :=
  ⟨⟨fun _ rt =>
    match rt with
    | ResourceType.course => Except.ok [Except.ok courseU]
    | ResourceType.article => Except.ok [Except.ok articleU]
    | _ => Except.ok []⟩, none⟩

/-- Same store without the course, no web searcher. -/
def envArticleOnly : Env :=
  ⟨⟨fun _ rt =>
    match rt with
    | ResourceType.article => Except.ok [Except.ok articleU]
    | _ => Except.ok []⟩, none⟩

/-- A Coursera search hit with a non-empty title and a relative link. -/
def courseEntryA : CourseraEntry := ⟨"Course A", some ⟨"", some "/learn/a"⟩⟩

/-- Fan-out environment producing one course, whose `save_batch` fails. -/
def webEnvSaveFail : WebEnv :=
  ⟨[courseEntryA], [], [], [], none, [], fun _ => Except.error "db down"⟩

/-- The same fan-out environment, with `save_batch` succeeding. -/
def webEnvSaveOk : WebEnv :=
  ⟨[courseEntryA], [], [], [], none, [], fun _ => Except.ok ["id1"]⟩

/-- Empty store plus the failing-persistence fan-out. -/
def envSaveFail : Env := ⟨emptyStore, some fun _ => webEnvSaveFail⟩

/-- Empty store plus the succeeding-persistence fan-out. -/
def envSaveOk : Env := ⟨emptyStore, some fun _ => webEnvSaveOk⟩

/-- Empty store, quiet web searcher configured. -/
def envQuietWeb : Env := ⟨emptyStore, some fun _ => emptyWebEnv⟩

/-- A store whose raw search errors on the course query of skill "s" and
answers one article otherwise. -/
def envReadFail : Env :=
  ⟨⟨fun s rt =>
    if s = "s" ∧ rt = ResourceType.course then Except.error "chromadb down"
    else
      match rt with
      | ResourceType.article => Except.ok [Except.ok articleU]
      | _ => Except.ok []⟩, none⟩

namespace CareerService

/-- The store environment with one query's raw outcome replaced. -/
def overrideRaw (env : Env) (skill : String) (rt : ResourceType)
    (o : RawSearchOutcome) : Env :=
  ⟨⟨fun s t =>
      if s = skill ∧ t = rt then o else env.store.rawSearch s t⟩, env.web⟩

end CareerService

namespace CareerService

/-! ### Lemmas about the dedup pass -/

theorem dedupList_nil (seen : List String) : dedupList seen [] = ([], seen) := rfl

theorem dedupList_cons (seen : List String) (r : Resource) (rs : List Resource) :
    dedupList seen (r :: rs) =
      if r.url ≠ "" ∧ r.url ∉ seen then
        ((dedupList (r.url :: seen) rs).1.cons r, (dedupList (r.url :: seen) rs).2)
      else
        dedupList seen rs := by
  simp only [dedupList]

/-- The kept list is a sublist (order-preserving selection) of the input. -/
theorem dedupList_sublist (seen : List String) (rs : List Resource) :
    (dedupList seen rs).1.Sublist rs := by
  induction rs generalizing seen with
  | nil => simp [dedupList_nil]
  | cons r rs ih =>
      rw [dedupList_cons]
      split
      · exact (ih (r.url :: seen)).cons₂ r
      · exact (ih seen).cons r

/-- Every kept resource has a non-empty url that was not yet seen. -/
theorem dedupList_mem (seen : List String) (rs : List Resource) :
    ∀ r ∈ (dedupList seen rs).1, r.url ≠ "" ∧ r.url ∉ seen := by
  induction rs generalizing seen with
  | nil => simp [dedupList_nil]
  | cons r rs ih =>
      rw [dedupList_cons]
      split
      · rename_i hcond
        intro x hx
        rcases List.mem_cons.mp hx with hx | hx
        · exact hx ▸ hcond
        · have := ih (r.url :: seen) x hx
          exact ⟨this.1, fun hm => this.2 (List.mem_cons_of_mem _ hm)⟩
      · exact ih seen

/-- The updated seen set holds exactly the old one plus the kept urls. -/
theorem dedupList_seen (seen : List String) (rs : List Resource) :
    ∀ u, u ∈ (dedupList seen rs).2 ↔
      u ∈ seen ∨ ∃ r ∈ (dedupList seen rs).1, r.url = u := by
  induction rs generalizing seen with
  | nil => simp [dedupList_nil]
  | cons r rs ih =>
      rw [dedupList_cons]
      split
      · intro u
        rw [ih (r.url :: seen) u]
        simp only [List.mem_cons]
        constructor
        · rintro ((h | h) | ⟨x, hx, hu⟩)
          · exact Or.inr ⟨r, Or.inl rfl, h.symm⟩
          · exact Or.inl h
          · exact Or.inr ⟨x, Or.inr hx, hu⟩
        · rintro (h | ⟨x, (hx | hx), hu⟩)
          · exact Or.inl (Or.inr h)
          · exact Or.inl (Or.inl (hx ▸ hu.symm))
          · exact Or.inr ⟨x, hx, hu⟩
      · exact ih seen

/-- The urls of the kept list are pairwise distinct. -/
theorem dedupList_nodup (seen : List String) (rs : List Resource) :
    ((dedupList seen rs).1.map Resource.url).Nodup := by
  induction rs generalizing seen with
  | nil => simp [dedupList_nil]
  | cons r rs ih =>
      rw [dedupList_cons]
      split
      · simp only [List.cons_append, List.map_cons, List.nodup_cons]
        refine ⟨fun hmem => ?_, ih (r.url :: seen)⟩
        rcases List.mem_map.mp hmem with ⟨x, hx, hu⟩
        exact (dedupList_mem (r.url :: seen) rs x hx).2 (hu ▸ List.mem_cons_self _ _)
      · exact ih seen

theorem dedupBuckets_nil (seen : List String) : dedupBuckets seen [] = [] := rfl

theorem dedupBuckets_cons (seen : List String) (k : String) (rs : List Resource)
    (rest : Buckets) :
    dedupBuckets seen ((k, rs) :: rest) =
      (k, (dedupList seen rs).1.take 10) ::
        dedupBuckets (dedupList seen rs).2 rest := by
  simp only [dedupBuckets]

/-- Every final bucket comes from the bucket of the same key by an
order-preserving selection, and is capped at 10. -/
theorem dedupBuckets_mem (seen : List String) (bs : Buckets) (k : String)
    (v : List Resource) (h : (k, v) ∈ dedupBuckets seen bs) :
    ∃ raw, (k, raw) ∈ bs ∧ v.length ≤ 10 ∧ v.Sublist raw := by
  induction bs generalizing seen with
  | nil => simp [dedupBuckets_nil] at h
  | cons b rest ih =>
      obtain ⟨bk, brs⟩ := b
      rw [dedupBuckets_cons] at h
      rcases List.mem_cons.mp h with h | h
      · rw [Prod.mk.injEq] at h
        obtain ⟨hk, hv⟩ := h
        subst hk
        subst hv
        refine ⟨brs, List.mem_cons_self _ _, ?_, ?_⟩
        · simp [Nat.min_le_left 10]
        · exact (List.take_sublist 10 _).trans (dedupList_sublist seen brs)
      · obtain ⟨raw, hraw, hlen, hsub⟩ := ih _ h
        exact ⟨raw, List.mem_cons_of_mem _ hraw, hlen, hsub⟩

/-- Every resource of a final bucket has a non-empty url outside the seen set
the pass started from. -/
theorem dedupBuckets_mem_res (seen : List String) (bs : Buckets) (k : String)
    (v : List Resource) (h : (k, v) ∈ dedupBuckets seen bs) :
    ∀ r ∈ v, r.url ≠ "" ∧ r.url ∉ seen := by
  induction bs generalizing seen with
  | nil => simp [dedupBuckets_nil] at h
  | cons b rest ih =>
      obtain ⟨bk, brs⟩ := b
      rw [dedupBuckets_cons] at h
      rcases List.mem_cons.mp h with h | h
      · rw [Prod.mk.injEq] at h
        obtain ⟨_, hv⟩ := h
        subst hv
        intro r hr
        exact dedupList_mem seen brs r (List.mem_of_mem_take hr)
      · intro r hr
        have := ih _ h r hr
        refine ⟨this.1, fun hm => this.2 ?_⟩
        exact (dedupList_seen seen brs r.url).mpr (Or.inl hm)

/-! ### Keys, lookups and the invocation log -/

theorem extendAt_keys (m : Buckets) (k : String) (xs : List Resource) :
    (extendAt m k xs).map Prod.fst = m.map Prod.fst := by
  induction m with
  | nil => rfl
  | cons kv rest ih =>
      simp only [extendAt, List.map_cons] at ih ⊢
      rw [ih]
      split
      · rfl
      · rfl

theorem dedupBuckets_keys (seen : List String) (bs : Buckets) :
    (dedupBuckets seen bs).map Prod.fst = bs.map Prod.fst := by
  induction bs generalizing seen with
  | nil => rfl
  | cons b rest ih =>
      obtain ⟨bk, brs⟩ := b
      rw [dedupBuckets_cons]
      simp only [List.map_cons]
      rw [ih]

theorem accumulate_keys (env : Env) (skills : List String) (acc : Buckets) :
    ((accumulate env skills acc).1).map Prod.fst = acc.map Prod.fst := by
  induction skills generalizing acc with
  | nil => rfl
  | cons skill rest ih =>
      simp only [accumulate]
      rw [ih]
      simp only [extendAt_keys]

theorem lookup_cons (j a : String) (v : List Resource) (rest : Buckets) :
    List.lookup j ((a, v) :: rest) =
      if j = a then some v else List.lookup j rest := by
  by_cases h : j = a
  · simp [List.lookup, h]
  · have hb : (j == a) = false := by
      simp [h]
    simp [List.lookup, hb, h]

theorem lookup_extendAt (m : Buckets) (k j : String) (xs : List Resource)
    (h : j ≠ k) : (extendAt m k xs).lookup j = m.lookup j := by
  induction m with
  | nil => rfl
  | cons kv rest ih =>
      obtain ⟨a, v⟩ := kv
      have hcons : extendAt ((a, v) :: rest) k xs =
          (if a = k then (a, v ++ xs) else (a, v)) :: extendAt rest k xs := rfl
      rw [hcons]
      by_cases hk : a = k
      · have hja : j ≠ a := fun hja => h (hja.trans hk)
        rw [if_pos hk, lookup_cons, lookup_cons, if_neg hja, if_neg hja]
        exact ih
      · rw [if_neg hk, lookup_cons, lookup_cons]
        by_cases hj : j = a
        · rw [if_pos hj, if_pos hj]
        · rw [if_neg hj, if_neg hj]
          exact ih

theorem lookup_accumulate_vacancies (env : Env) (skills : List String)
    (acc : Buckets) (h : acc.lookup "vacancies" = some []) :
    ((accumulate env skills acc).1).lookup "vacancies" = some [] := by
  induction skills generalizing acc with
  | nil => exact h
  | cons skill rest ih =>
      simp only [accumulate]
      apply ih
      rw [lookup_extendAt _ _ _ _ (by decide), lookup_extendAt _ _ _ _ (by decide),
        lookup_extendAt _ _ _ _ (by decide), lookup_extendAt _ _ _ _ (by decide)]
      exact h

theorem lookup_dedupBuckets_empty (seen : List String) (bs : Buckets)
    (j : String) (h : bs.lookup j = some []) :
    (dedupBuckets seen bs).lookup j = some [] := by
  induction bs generalizing seen with
  | nil => simp [List.lookup] at h
  | cons b rest ih =>
      obtain ⟨bk, brs⟩ := b
      rw [dedupBuckets_cons]
      rw [lookup_cons] at h
      rw [lookup_cons]
      by_cases hj : j = bk
      · rw [if_pos hj] at h
        rw [if_pos hj]
        have hb : brs = [] := Option.some.inj h
        subst hb
        simp [dedupList_nil]
      · rw [if_neg hj] at h
        rw [if_neg hj]
        exact ih _ h

/-- The web-invocation log is the sublist of skills whose loop iteration took
the fallback branch; it does not depend on the accumulator. -/
theorem accumulate_log (env : Env) (skills : List String) (acc : Buckets) :
    (accumulate env skills acc).2 =
      skills.filter (fun s => (skillLists env s).2) := by
  induction skills generalizing acc with
  | nil => rfl
  | cons skill rest ih =>
      simp only [accumulate, List.filter]
      rw [ih]
      cases hinv : (skillLists env skill).2 with
      | true => simp
      | false => simp

/-- The fallback branch is taken exactly when a web searcher is configured and
the store produced fewer than 5 combined candidates. -/
theorem skillLists_invoked (env : Env) (skill : String) :
    (skillLists env skill).2 = true ↔
      env.web.isSome = true ∧ storeCount env skill < 5 := by
  unfold skillLists storeCount
  cases env.web with
  | none => simp
  | some w =>
      simp only [Option.isSome_some, true_and]
      split
      · rename_i hlt
        split
        · simpa using hlt
        · simpa using hlt
      · rename_i hge
        simpa using hge

/-! ### Congruence of the aggregation in its environment -/

theorem skillLists_congr (env₁ env₂ : Env) (s : String)
    (hs : ∀ rt, search_by_skill env₁.store s rt = search_by_skill env₂.store s rt)
    (hw : env₁.web = env₂.web) :
    skillLists env₁ s = skillLists env₂ s := by
  unfold skillLists
  rw [hs ResourceType.course, hs ResourceType.article, hs ResourceType.project,
    hs ResourceType.competition, hw]

theorem accumulate_congr (env₁ env₂ : Env) (skills : List String)
    (h : ∀ s, skillLists env₁ s = skillLists env₂ s) (acc : Buckets) :
    accumulate env₁ skills acc = accumulate env₂ skills acc := by
  induction skills generalizing acc with
  | nil => rfl
  | cons skill rest ih =>
      simp only [accumulate]
      rw [h skill]
      simp only [ih]

theorem findResources_congr (env₁ env₂ : Env) (skills : List String)
    (h : ∀ s, skillLists env₁ s = skillLists env₂ s) :
    findResourcesWithLog env₁ skills = findResourcesWithLog env₂ skills := by
  unfold findResourcesWithLog
  rw [accumulate_congr env₁ env₂ skills h initBuckets]

/-- Unfolding of one loop iteration, projected to the buckets. -/
theorem accumulate_fst (env : Env) (skill : String) (rest : List String)
    (acc : Buckets) :
    (accumulate env (skill :: rest) acc).1 =
      (accumulate env rest
        (extendAt (extendAt (extendAt (extendAt acc
          "courses" (skillLists env skill).1.courses)
          "articles" (skillLists env skill).1.articles)
          "projects" (skillLists env skill).1.projects)
          "competitions" (skillLists env skill).1.competitions)).1 := rfl

theorem accumulate_fst_congr (env₁ env₂ : Env) (skills : List String)
    (h : ∀ s ∈ skills, (skillLists env₁ s).1 = (skillLists env₂ s).1)
    (acc : Buckets) :
    (accumulate env₁ skills acc).1 = (accumulate env₂ skills acc).1 := by
  induction skills generalizing acc with
  | nil => rfl
  | cons skill rest ih =>
      rw [accumulate_fst, accumulate_fst, h skill (List.mem_cons_self _ _)]
      exact ih (fun s hs => h s (List.mem_cons_of_mem _ hs)) _

/-- Within one final bucket, urls are pairwise distinct. -/
theorem dedupBuckets_nodup (seen : List String) (bs : Buckets) (k : String)
    (v : List Resource) (h : (k, v) ∈ dedupBuckets seen bs) :
    (v.map Resource.url).Nodup := by
  induction bs generalizing seen with
  | nil => simp [dedupBuckets_nil] at h
  | cons b rest ih =>
      obtain ⟨bk, brs⟩ := b
      rw [dedupBuckets_cons] at h
      rcases List.mem_cons.mp h with h | h
      · rw [Prod.mk.injEq] at h
        obtain ⟨_, hv⟩ := h
        subst hv
        exact List.Nodup.sublist ((List.take_sublist 10 _).map _)
          (dedupList_nodup seen brs)
      · exact ih _ h

/-- When the configured web searcher's call errors for a skill, the loop logs
and skips the extends: the four merged lists equal the store-only run. -/
theorem skillLists_fst_web_error (env : Env) (w : String → WebEnv) (s : String)
    (hw : env.web = some w) (err : String)
    (herr : WebSearcher.find_resources_for_skill (w s) s = Except.error err) :
    (skillLists env s).1 = (skillLists ⟨env.store, none⟩ s).1 := by
  obtain ⟨store, web⟩ := env
  simp only at hw herr ⊢
  subst hw
  unfold skillLists
  dsimp only
  rw [herr]
  split
  · rfl
  · rfl

/-- Distinct final buckets never share a url: the seen set is common to the
whole pass. -/
theorem dedupBuckets_pairwise (seen : List String) (bs : Buckets) :
    (dedupBuckets seen bs).Pairwise
      (fun a b => ∀ r ∈ a.2, ∀ s ∈ b.2, r.url ≠ s.url) := by
  induction bs generalizing seen with
  | nil => simp [dedupBuckets_nil]
  | cons b rest ih =>
      obtain ⟨bk, brs⟩ := b
      rw [dedupBuckets_cons]
      refine List.Pairwise.cons ?_ (ih _)
      intro p hp r hr s hs heq
      have hseen : r.url ∈ (dedupList seen brs).2 := by
        refine (dedupList_seen seen brs r.url).mpr
          (Or.inr ⟨r, List.mem_of_mem_take hr, rfl⟩)
      have := dedupBuckets_mem_res _ rest p.1 p.2 (by
        simpa using hp) s hs
      exact this.2 (heq ▸ hseen)

end CareerService

namespace WebSearcher

/-! ### Lemmas about the parsers -/

theorem exceptBind_ok {α β : Type} (x : Except String α)
    (f : α → Except String β) (b : β) (h : x.bind f = Except.ok b) :
    ∃ a, x = Except.ok a ∧ f a = Except.ok b := by
  cases x with
  | error e => simp [Except.bind] at h
  | ok a => exact ⟨a, rfl, h⟩

theorem courseraLoop_cons (e : CourseraEntry) (es : List CourseraEntry) :
    courseraLoop (e :: es) =
      (courseraLink e).bind fun link =>
        (courseraLoop es).bind fun rest =>
          if pyStrip e.text ≠ "" then
            Except.ok ({ title := pyStrip e.text, url := link,
                         resource_type := ResourceType.course,
                         source := "coursera" } :: rest)
          else
            Except.ok rest := rfl

theorem stepikLoop_cons (a : ATag) (as : List ATag) :
    stepikLoop (a :: as) =
      (hrefAttr a).bind fun href =>
        (stepikLoop as).bind fun rest =>
          Except.ok ({ title := pyStrip a.text,
                       url := "https://stepik.org" ++ href,
                       resource_type := ResourceType.course,
                       source := "stepik" } :: rest) := rfl

theorem habrArticlesLoop_cons (e : ArticleEntry) (es : List ArticleEntry) :
    habrArticlesLoop (e :: es) =
      (habrArticleLink e).bind fun link =>
        (habrArticlesLoop es).bind fun rest =>
          Except.ok ({ title := match e.h2text with
                                | some t => pyStrip t
                                | none => "Статья",
                       url := link,
                       resource_type := ResourceType.article,
                       source := "habr" } :: rest) := rfl

theorem habrVacanciesLoop_cons (c : VacancyCard) (cs : List VacancyCard) :
    habrVacanciesLoop (c :: cs) =
      (habrVacancyLink c).bind fun link =>
        (habrVacanciesLoop cs).bind fun rest =>
          Except.ok ({ title := match c.titleA with
                                | some a => pyStrip a.text
                                | none => "Вакансия",
                       url := link,
                       resource_type := ResourceType.vacancy,
                       source := "habr_career" } :: rest) := rfl

theorem kaggleLoop_cons (c : KaggleCard) (cs : List KaggleCard) :
    kaggleLoop (c :: cs) =
      (kaggleLink c).bind fun link =>
        (kaggleLoop cs).bind fun rest =>
          Except.ok ({ title := match c.titleDiv with
                                | some t => pyStrip t
                                | none => "Competition",
                       url := link,
                       resource_type := ResourceType.competition,
                       source := "kaggle" } :: rest) := rfl

theorem courseraLink_ok (e : CourseraEntry)
    (h : ∀ a, e.parentA = some a → a.href ≠ none) :
    ∃ s, courseraLink e = Except.ok s := by
  unfold courseraLink
  cases hpa : e.parentA with
  | none => exact ⟨"", rfl⟩
  | some a =>
      cases hhref : a.href with
      | none => exact absurd hhref (h a hpa)
      | some v =>
          exact ⟨"https://www.coursera.org" ++ v, by
            simp [hrefAttr, hhref, Except.map]⟩

theorem hrefAttr_ok (a : ATag) (h : a.href ≠ none) :
    ∃ s, hrefAttr a = Except.ok s := by
  unfold hrefAttr
  cases hhref : a.href with
  | none => exact absurd hhref h
  | some v => exact ⟨v, rfl⟩

theorem habrArticleLink_ok (e : ArticleEntry)
    (h : ∀ a, e.linkA = some a → a.href ≠ none) :
    ∃ s, habrArticleLink e = Except.ok s := by
  unfold habrArticleLink
  cases hpa : e.linkA with
  | none => exact ⟨"", rfl⟩
  | some a =>
      obtain ⟨v, hv⟩ := hrefAttr_ok a (h a hpa)
      exact ⟨v, hv⟩

theorem habrVacancyLink_ok (c : VacancyCard)
    (h : ∀ a, c.titleA = some a → a.href ≠ none) :
    ∃ s, habrVacancyLink c = Except.ok s := by
  unfold habrVacancyLink
  cases hpa : c.titleA with
  | none => exact ⟨"", rfl⟩
  | some a =>
      obtain ⟨v, hv⟩ := hrefAttr_ok a (h a hpa)
      exact ⟨"https://career.habr.com" ++ v, by simp [hv, Except.map]⟩

theorem kaggleLink_ok (c : KaggleCard)
    (h : ∀ a, c.parentA = some a → a.href ≠ none) :
    ∃ s, kaggleLink c = Except.ok s := by
  unfold kaggleLink
  cases hpa : c.parentA with
  | none => exact ⟨"", rfl⟩
  | some a =>
      obtain ⟨v, hv⟩ := hrefAttr_ok a (h a hpa)
      exact ⟨"https://www.kaggle.com" ++ v, by simp [hv, Except.map]⟩

theorem courseraLoop_total (l : List CourseraEntry)
    (h : ∀ e ∈ l, ∀ a, e.parentA = some a → a.href ≠ none) :
    ∃ out, courseraLoop l = Except.ok out := by
  induction l with
  | nil => exact ⟨[], rfl⟩
  | cons e es ih =>
      obtain ⟨out, hout⟩ := ih fun x hx => h x (List.mem_cons_of_mem _ hx)
      obtain ⟨s, hs⟩ := courseraLink_ok e (h e (List.mem_cons_self _ _))
      rw [courseraLoop_cons, hs, hout]
      simp only [Except.bind]
      split
      · exact ⟨_, rfl⟩
      · exact ⟨_, rfl⟩

theorem stepikLoop_total (l : List ATag) (h : ∀ a ∈ l, a.href ≠ none) :
    ∃ out, stepikLoop l = Except.ok out := by
  induction l with
  | nil => exact ⟨[], rfl⟩
  | cons a as ih =>
      obtain ⟨out, hout⟩ := ih fun x hx => h x (List.mem_cons_of_mem _ hx)
      obtain ⟨s, hs⟩ := hrefAttr_ok a (h a (List.mem_cons_self _ _))
      rw [stepikLoop_cons, hs, hout]
      exact ⟨_, rfl⟩

theorem habrArticlesLoop_total (l : List ArticleEntry)
    (h : ∀ e ∈ l, ∀ a, e.linkA = some a → a.href ≠ none) :
    ∃ out, habrArticlesLoop l = Except.ok out := by
  induction l with
  | nil => exact ⟨[], rfl⟩
  | cons e es ih =>
      obtain ⟨out, hout⟩ := ih fun x hx => h x (List.mem_cons_of_mem _ hx)
      obtain ⟨s, hs⟩ := habrArticleLink_ok e (h e (List.mem_cons_self _ _))
      rw [habrArticlesLoop_cons, hs, hout]
      exact ⟨_, rfl⟩

theorem habrVacanciesLoop_total (l : List VacancyCard)
    (h : ∀ c ∈ l, ∀ a, c.titleA = some a → a.href ≠ none) :
    ∃ out, habrVacanciesLoop l = Except.ok out := by
  induction l with
  | nil => exact ⟨[], rfl⟩
  | cons c cs ih =>
      obtain ⟨out, hout⟩ := ih fun x hx => h x (List.mem_cons_of_mem _ hx)
      obtain ⟨s, hs⟩ := habrVacancyLink_ok c (h c (List.mem_cons_self _ _))
      rw [habrVacanciesLoop_cons, hs, hout]
      exact ⟨_, rfl⟩

theorem kaggleLoop_total (l : List KaggleCard)
    (h : ∀ c ∈ l, ∀ a, c.parentA = some a → a.href ≠ none) :
    ∃ out, kaggleLoop l = Except.ok out := by
  induction l with
  | nil => exact ⟨[], rfl⟩
  | cons c cs ih =>
      obtain ⟨out, hout⟩ := ih fun x hx => h x (List.mem_cons_of_mem _ hx)
      obtain ⟨s, hs⟩ := kaggleLink_ok c (h c (List.mem_cons_self _ _))
      rw [kaggleLoop_cons, hs, hout]
      exact ⟨_, rfl⟩

/-- A successful Coursera link is either empty or origin-prefixed. -/
theorem courseraLink_shape (e : CourseraEntry) (link : String)
    (h : courseraLink e = Except.ok link) :
    link = "" ∨ ∃ tail, link = "https://www.coursera.org" ++ tail := by
  unfold courseraLink at h
  cases hpa : e.parentA with
  | none =>
      rw [hpa] at h
      exact Or.inl (Except.ok.inj h).symm
  | some a =>
      rw [hpa] at h
      cases hhref : a.href with
      | none =>
          simp only [hrefAttr, hhref, Except.map] at h
          exact Except.noConfusion h
      | some v =>
          simp only [hrefAttr, hhref, Except.map] at h
          exact Or.inr ⟨v, (Except.ok.inj h).symm⟩

/-- Every candidate the Coursera loop emits has a non-empty title and an
empty-or-origin-prefixed url. -/
theorem courseraLoop_spec (l : List CourseraEntry) (out : List Resource)
    (h : courseraLoop l = Except.ok out) :
    ∀ r ∈ out, r.title ≠ "" ∧
      (r.url = "" ∨ ∃ tail, r.url = "https://www.coursera.org" ++ tail) := by
  induction l generalizing out with
  | nil =>
      have hout : out = [] := (Except.ok.inj h).symm
      subst hout
      simp
  | cons e es ih =>
      rw [courseraLoop_cons] at h
      obtain ⟨link, hlink, h⟩ := exceptBind_ok _ _ _ h
      obtain ⟨rest, hrest, h⟩ := exceptBind_ok _ _ _ h
      split at h
      · rename_i ht
        have hout : _ :: rest = out := Except.ok.inj h
        subst hout
        intro r hr
        rcases List.mem_cons.mp hr with hr | hr
        · subst hr
          exact ⟨ht, courseraLink_shape e link hlink⟩
        · exact ih rest hrest r hr
      · have hout : rest = out := Except.ok.inj h
        subst hout
        exact ih rest hrest

/-- The Stepik loop emits one candidate per entry — with no title test — and
every url is origin-prefixed. -/
theorem stepikLoop_spec (l : List ATag) (out : List Resource)
    (h : stepikLoop l = Except.ok out) :
    out.length = l.length ∧
      ∀ r ∈ out, ∃ tail, r.url = "https://stepik.org" ++ tail := by
  induction l generalizing out with
  | nil =>
      have hout : out = [] := (Except.ok.inj h).symm
      subst hout
      simp
  | cons a as ih =>
      rw [stepikLoop_cons] at h
      obtain ⟨href, hhref, h⟩ := exceptBind_ok _ _ _ h
      obtain ⟨rest, hrest, h⟩ := exceptBind_ok _ _ _ h
      have hout : _ :: rest = out := Except.ok.inj h
      subst hout
      obtain ⟨hlen, hurl⟩ := ih rest hrest
      refine ⟨by simp [hlen], ?_⟩
      intro r hr
      rcases List.mem_cons.mp hr with hr | hr
      · subst hr
        exact ⟨href, rfl⟩
      · exact hurl r hr

end WebSearcher

/-! ## Claim theorems -/

open CareerService WebSearcher

/-- C9: for every input skill list — the empty list included — the aggregation
returns a dictionary with exactly the five category keys, in order, each bound
to a (possibly empty) list; the empty skill list yields the all-empty buckets.
The model is a total function, so no exception can reach the caller. -/
theorem C9_structural_completeness (env : Env) (skills : List String) :
    (find_resources_for_skills env skills).map Prod.fst =
      ["courses", "articles", "vacancies", "projects", "competitions"] ∧
    find_resources_for_skills env [] = initBuckets := by
  constructor
  · show (dedupBuckets [] (accumulate env skills initBuckets).1).map Prod.fst = _
    rw [dedupBuckets_keys, accumulate_keys]
    rfl
  · rfl

/-- C10: the vacancies bucket of the aggregated result is always empty — the
skill loop never extends the "vacancies" key — even though the web fan-out
does fetch, parse and return vacancy candidates (second conjunct). -/
theorem C10_vacancies_always_empty :
    (∀ (env : Env) (skills : List String),
      (find_resources_for_skills env skills).lookup "vacancies" = some []) ∧
    ∃ wr, WebSearcher.find_resources_for_skill
        ⟨[], [], [], [⟨some ⟨"Dev", some "/vacancies/1"⟩⟩], none, [],
          fun _ => Except.ok []⟩ "docker" = Except.ok wr ∧
      wr.vacancies ≠ [] := by
  constructor
  · intro env skills
    show (dedupBuckets [] (accumulate env skills initBuckets).1).lookup
      "vacancies" = some []
    exact lookup_dedupBuckets_empty _ _ _
      (lookup_accumulate_vacancies env skills initBuckets rfl)
  · refine ⟨⟨[], [],
      [{ title := "Dev", url := "https://career.habr.com/vacancies/1",
         resource_type := ResourceType.vacancy, skill := "docker",
         source := "habr_career" }], [], []⟩, by decide, by simp⟩

/-- C2: per skill, the web fan-out is not invoked when the store returned at
least 5 combined candidates across the four queried categories, and it is
invoked when it returned fewer than 5 and a web searcher is configured. -/
theorem C2_threshold_gating (env : Env) (skills : List String) (skill : String)
    (hmem : skill ∈ skills) :
    (5 ≤ storeCount env skill →
      skill ∉ (findResourcesWithLog env skills).2) ∧
    (storeCount env skill < 5 → env.web.isSome = true →
      skill ∈ (findResourcesWithLog env skills).2) := by
  have hlog : (findResourcesWithLog env skills).2 =
      skills.filter fun s => (skillLists env s).2 := by
    show (accumulate env skills initBuckets).2 = _
    exact accumulate_log env skills initBuckets
  constructor
  · intro hge hmemlog
    rw [hlog] at hmemlog
    have hinv : (skillLists env skill).2 = true :=
      (List.mem_filter.mp hmemlog).2
    have hlt := ((skillLists_invoked env skill).mp hinv).2
    omega
  · intro hlt hsome
    rw [hlog]
    exact List.mem_filter.mpr
      ⟨hmem, (skillLists_invoked env skill).mpr ⟨hsome, hlt⟩⟩

/-- Witness for C2 at a concrete input: empty store (0 < 5 candidates), quiet
web searcher configured, skill "docker" — the fan-out is invoked. -/
theorem C2_threshold_gating_witness :
    storeCount envQuietWeb "docker" < 5 ∧
    "docker" ∈ (findResourcesWithLog envQuietWeb ["docker"]).2 :=
  ⟨by decide,
   (C2_threshold_gating envQuietWeb ["docker"] "docker" (by decide)).2
     (by decide) rfl⟩

/-- C8: every final bucket has length at most 10 and is an order-preserving
selection (sublist) of the corresponding concatenated pre-dedup bucket: the
dedup-plus-truncation keeps survivors in first-occurrence order. -/
theorem C8_cap_invariant (env : Env) (skills : List String) (k : String)
    (v : List Resource) (h : (k, v) ∈ find_resources_for_skills env skills) :
    v.length ≤ 10 ∧
    ∃ raw, (k, raw) ∈ (accumulate env skills initBuckets).1 ∧ v.Sublist raw := by
  have h' : (k, v) ∈ dedupBuckets [] (accumulate env skills initBuckets).1 := h
  obtain ⟨raw, hraw, hlen, hsub⟩ := dedupBuckets_mem [] _ k v h'
  exact ⟨hlen, raw, hraw, hsub⟩

/-- Witness for C8 at a concrete input. -/
theorem C8_cap_invariant_witness :
    ([courseU].length ≤ 10 ∧
    ∃ raw, ("courses", raw) ∈ (accumulate envBothU ["s"] initBuckets).1 ∧
      [courseU].Sublist raw) :=
  C8_cap_invariant envBothU ["s"] "courses" [courseU] (by decide)

/-- C3: a raw store-read failure for one category of one skill is absorbed
inside `ChromaVectorStore.search`, which returns the empty list; the whole
aggregation — buckets and web-invocation log alike — therefore equals the run
in which that one query succeeded with an empty result.  The failed category
degrades to empty for that skill, the other categories' reads and the web
fallback contribute unchanged, and (the model being a total function) no
exception reaches the caller. -/
theorem C3_store_read_failure_isolated (env : Env) (skill : String)
    (rt : ResourceType) (e : String) (skills : List String)
    (herr : env.store.rawSearch skill rt = Except.error e) :
    findResourcesWithLog env skills =
      findResourcesWithLog (overrideRaw env skill rt (Except.ok [])) skills := by
  apply findResources_congr
  intro s
  apply skillLists_congr
  · intro rt'
    have hcs : chromaSearch (env.store.rawSearch s rt') =
        chromaSearch
          ((overrideRaw env skill rt (Except.ok [])).store.rawSearch s rt') := by
      show chromaSearch (env.store.rawSearch s rt') =
        chromaSearch (if s = skill ∧ rt' = rt then Except.ok []
          else env.store.rawSearch s rt')
      by_cases hc : s = skill ∧ rt' = rt
      · obtain ⟨h1, h2⟩ := hc
        subst h1
        subst h2
        rw [if_pos ⟨rfl, rfl⟩, herr]
        rfl
      · rw [if_neg hc]
    unfold search_by_skill
    rw [hcs]
  · rfl

/-- Witness for C3 at a concrete input: the course query of skill "s" errors,
the article query answers. -/
theorem C3_store_read_failure_isolated_witness :
    envReadFail.store.rawSearch "s" ResourceType.course =
      Except.error "chromadb down" ∧
    findResourcesWithLog envReadFail ["s"] =
      findResourcesWithLog
        (overrideRaw envReadFail "s" ResourceType.course (Except.ok []))
        ["s"] :=
  ⟨by decide,
   C3_store_read_failure_isolated envReadFail "s" ResourceType.course
     "chromadb down" ["s"] (by decide)⟩

/-- C1 counterexample: the claim says deduplication "never operates across
categories", yet with `envBothU` — a course and an article sharing url "u" —
the article is dropped from the articles bucket, while removing the course
(`envArticleOnly`) lets the very same article survive.  `seen_urls` is one
set shared by all five buckets (career_service.py line 241). -/
theorem C1_counterexample :
    (find_resources_for_skills envBothU ["s"]).lookup "articles" = some [] ∧
    (find_resources_for_skills envBothU ["s"]).lookup "courses" =
      some [courseU] ∧
    (find_resources_for_skills envArticleOnly ["s"]).lookup "articles" =
      some [articleU] := by
  refine ⟨by decide, by decide, by decide⟩

/-- C1 (amended): deduplication maintains a single seen-url set across the
whole dictionary, visited in its fixed key order; consequently within each
final bucket urls are non-empty and pairwise distinct, and — contrary to the
claim as stated — any two distinct buckets are url-disjoint as well: a
candidate is dropped whenever an earlier-processed category already holds its
url. -/
theorem C1_amended_dedup_shared (env : Env) (skills : List String) :
    (∀ k v, (k, v) ∈ find_resources_for_skills env skills →
      ((v.map Resource.url).Nodup ∧ ∀ r ∈ v, r.url ≠ "")) ∧
    (find_resources_for_skills env skills).Pairwise
      (fun a b => ∀ r ∈ a.2, ∀ s ∈ b.2, r.url ≠ s.url) := by
  constructor
  · intro k v h
    have h' : (k, v) ∈ dedupBuckets [] (accumulate env skills initBuckets).1 := h
    refine ⟨dedupBuckets_nodup [] _ k v h', ?_⟩
    intro r hr
    exact (dedupBuckets_mem_res [] _ k v h' r hr).1
  · show (dedupBuckets [] (accumulate env skills initBuckets).1).Pairwise _
    exact dedupBuckets_pairwise [] _

/-- Witness for the amended C1 at a concrete input. -/
theorem C1_amended_dedup_shared_witness :
    ([courseU].map Resource.url).Nodup ∧ ∀ r ∈ [courseU], r.url ≠ "" :=
  (C1_amended_dedup_shared envBothU ["s"]).1 "courses" [courseU] (by decide)

/-- C4 counterexample: `envSaveFail` and `envSaveOk` differ only in the
outcome of `save_batch`, yet the returned buckets differ — the web-derived
Coursera course is missing from the courses bucket when persistence fails,
because `find_resources_for_skill` awaits `save_batch` with no handler and
the career-service loop catches the escaping exception before its extends. -/
theorem C4_counterexample :
    find_resources_for_skills envSaveFail ["docker"] ≠
      find_resources_for_skills envSaveOk ["docker"] ∧
    (find_resources_for_skills envSaveFail ["docker"]).lookup "courses" =
      some [] := by
  constructor
  · decide
  · decide

/-- C4 (amended): when the web searcher's per-skill call raises (as a
`save_batch` failure makes it do), the exception is caught and logged by the
aggregation loop — nothing is surfaced to the caller — but the skill's entire
web contribution is dropped: the returned buckets equal those of a run with
no web searcher at all, not those of a run whose persistence succeeded. -/
theorem C4_amended_save_failure_drops_web (env : Env) (w : String → WebEnv)
    (skills : List String) (hw : env.web = some w)
    (herr : ∀ s ∈ skills, ∃ err,
      WebSearcher.find_resources_for_skill (w s) s = Except.error err) :
    find_resources_for_skills env skills =
      find_resources_for_skills ⟨env.store, none⟩ skills := by
  show dedupBuckets [] (accumulate env skills initBuckets).1 =
    dedupBuckets [] (accumulate ⟨env.store, none⟩ skills initBuckets).1
  rw [accumulate_fst_congr env ⟨env.store, none⟩ skills
    (fun s hs => by
      obtain ⟨err, herr'⟩ := herr s hs
      exact skillLists_fst_web_error env w s hw err herr') initBuckets]

/-- Witness for the amended C4 at a concrete input. -/
theorem C4_amended_save_failure_drops_web_witness :
    find_resources_for_skills envSaveFail ["docker"] =
      find_resources_for_skills ⟨envSaveFail.store, none⟩ ["docker"] :=
  C4_amended_save_failure_drops_web envSaveFail (fun _ => webEnvSaveFail)
    ["docker"] rfl
    (fun s hs => ⟨"db down", by
      have hss : s = "docker" := List.mem_singleton.mp hs
      subst hss
      decide⟩)

/-- C5 counterexample: the Stepik parser is not total — a result anchor
without an `href` attribute makes `res['href']` raise KeyError, which
propagates out of `parse_courses_from_stepik`. -/
theorem C5_counterexample :
    parse_courses_from_stepik [⟨"X", none⟩] =
      Except.error "KeyError: href" := by
  decide

/-- C5 (amended): the parsers do tolerate absent sub-*elements* (empty-string
link, placeholder title, skipped entry), and the JSON parser is
unconditionally total, but the five HTML parsers raise KeyError as soon as a
located link element lacks its `href` attribute; totality holds exactly on
payloads whose located link elements all carry `href`. -/
theorem C5_amended_parser_totality (ce : List CourseraEntry) (st : List ATag)
    (ar : List ArticleEntry) (va : List VacancyCard)
    (gh : Option (List GithubRepo)) (ka : List KaggleCard)
    (hce : ∀ e ∈ ce, ∀ a, e.parentA = some a → a.href ≠ none)
    (hst : ∀ a ∈ st, a.href ≠ none)
    (har : ∀ e ∈ ar, ∀ a, e.linkA = some a → a.href ≠ none)
    (hva : ∀ c ∈ va, ∀ a, c.titleA = some a → a.href ≠ none)
    (hka : ∀ c ∈ ka, ∀ a, c.parentA = some a → a.href ≠ none) :
    (∃ l, parse_courses_from_coursera ce = Except.ok l) ∧
    (∃ l, parse_courses_from_stepik st = Except.ok l) ∧
    (∃ l, parse_articles_from_habr ar = Except.ok l) ∧
    (∃ l, parse_vacancies_from_habr va = Except.ok l) ∧
    (∃ l, parse_competitions_from_kaggle ka = Except.ok l) ∧
    (parse_projects_from_github gh).length ≤ 3 := by
  refine ⟨courseraLoop_total _ (fun e he => hce e (List.mem_of_mem_take he)),
    stepikLoop_total _ (fun a ha => hst a (List.mem_of_mem_take ha)),
    habrArticlesLoop_total _ (fun e he => har e (List.mem_of_mem_take he)),
    habrVacanciesLoop_total _ (fun c hc => hva c (List.mem_of_mem_take hc)),
    kaggleLoop_total _ (fun c hc => hka c (List.mem_of_mem_take hc)), ?_⟩
  unfold parse_projects_from_github
  rw [List.length_map]
  exact List.length_take_le 3 _

/-- Witness for the amended C5 at concrete payloads. -/
theorem C5_amended_parser_totality_witness :
    (∃ l, parse_courses_from_coursera [⟨"T", some ⟨"", some "/x"⟩⟩] =
      Except.ok l) ∧
    (∃ l, parse_courses_from_stepik [⟨"T", some "/y"⟩] = Except.ok l) ∧
    (∃ l, parse_articles_from_habr [⟨some "A", some ⟨"", some "/p"⟩⟩] =
      Except.ok l) ∧
    (∃ l, parse_vacancies_from_habr [⟨some ⟨"V", some "/v"⟩⟩] =
      Except.ok l) ∧
    (∃ l, parse_competitions_from_kaggle [⟨some "C", some ⟨"", some "/c"⟩⟩] =
      Except.ok l) ∧
    (parse_projects_from_github (some [{ name := some "r" }])).length ≤ 3 :=
  C5_amended_parser_totality _ _ _ _ _ _ (by decide) (by decide) (by decide)
    (by decide) (by decide)

/-- C6 counterexample: the Stepik course parser emits a candidate whose title
is empty — there is no title test in its loop — refuting "each of the two
course parsers emits a candidate only when the entry has a non-empty
title". -/
theorem C6_counterexample :
    parse_courses_from_stepik [⟨"", some "/course/1"⟩] =
      Except.ok [{ title := "", url := "https://stepik.org/course/1",
                   resource_type := ResourceType.course,
                   source := "stepik" }] := by
  decide

/-- C6 (amended): the Coursera parser emits a candidate only for entries with
a non-empty stripped title, and each emitted url is empty or origin-prefixed;
the Stepik parser emits one candidate for every processed entry — regardless
of the title — and every emitted url is origin-prefixed. -/
theorem C6_amended_course_title_policy (ce : List CourseraEntry)
    (st : List ATag) (lc ls : List Resource)
    (hc : parse_courses_from_coursera ce = Except.ok lc)
    (hs : parse_courses_from_stepik st = Except.ok ls) :
    (∀ r ∈ lc, r.title ≠ "" ∧
      (r.url = "" ∨ ∃ tail, r.url = "https://www.coursera.org" ++ tail)) ∧
    ls.length = (st.take 3).length ∧
    (∀ r ∈ ls, ∃ tail, r.url = "https://stepik.org" ++ tail) :=
  ⟨courseraLoop_spec _ lc hc, (stepikLoop_spec _ ls hs).1,
   (stepikLoop_spec _ ls hs).2⟩

/-- Witness for the amended C6 at concrete payloads. -/
theorem C6_amended_course_title_policy_witness :
    (∀ r ∈ [({ title := "T", url := "https://www.coursera.org/x",
               resource_type := ResourceType.course,
               source := "coursera" } : Resource)], r.title ≠ "" ∧
      (r.url = "" ∨ ∃ tail, r.url = "https://www.coursera.org" ++ tail)) ∧
    [({ title := "T", url := "https://stepik.org/y",
        resource_type := ResourceType.course,
        source := "stepik" } : Resource)].length =
      (([⟨"T", some "/y"⟩] : List ATag).take 3).length ∧
    (∀ r ∈ [({ title := "T", url := "https://stepik.org/y",
               resource_type := ResourceType.course,
               source := "stepik" } : Resource)],
      ∃ tail, r.url = "https://stepik.org" ++ tail) :=
  C6_amended_course_title_policy [⟨"T", some ⟨"", some "/x"⟩⟩]
    [⟨"T", some "/y"⟩] _ _ (by decide) (by decide)

/-- C7: in each per-skill merged category list the store-derived candidates
form the prefix, and the appended web-derived part is exactly the fan-out
result's corresponding field when the fallback ran and succeeded, and empty
otherwise. -/
theorem C7_merge_ordering (env : Env) (w : String → WebEnv) (skill : String)
    (hw : env.web = some w) :
    ∃ wc wa wp wk,
      (skillLists env skill).1.courses =
        search_by_skill env.store skill ResourceType.course ++ wc ∧
      (skillLists env skill).1.articles =
        search_by_skill env.store skill ResourceType.article ++ wa ∧
      (skillLists env skill).1.projects =
        search_by_skill env.store skill ResourceType.project ++ wp ∧
      (skillLists env skill).1.competitions =
        search_by_skill env.store skill ResourceType.competition ++ wk ∧
      ((∃ wr, WebSearcher.find_resources_for_skill (w skill) skill =
            Except.ok wr ∧ wc = wr.courses ∧ wa = wr.articles ∧
            wp = wr.projects ∧ wk = wr.competitions) ∨
        (wc = [] ∧ wa = [] ∧ wp = [] ∧ wk = [])) := by
  obtain ⟨store, web⟩ := env
  simp only at hw ⊢
  subst hw
  unfold skillLists
  dsimp only
  split
  · cases hfr : WebSearcher.find_resources_for_skill (w skill) skill with
    | ok wr =>
        exact ⟨wr.courses, wr.articles, wr.projects, wr.competitions,
          rfl, rfl, rfl, rfl, Or.inl ⟨wr, rfl, rfl, rfl, rfl, rfl⟩⟩
    | error err =>
        exact ⟨[], [], [], [], (List.append_nil _).symm,
          (List.append_nil _).symm, (List.append_nil _).symm,
          (List.append_nil _).symm, Or.inr ⟨rfl, rfl, rfl, rfl⟩⟩
  · exact ⟨[], [], [], [], (List.append_nil _).symm,
      (List.append_nil _).symm, (List.append_nil _).symm,
      (List.append_nil _).symm, Or.inr ⟨rfl, rfl, rfl, rfl⟩⟩

/-- Witness for C7 at a concrete input. -/
theorem C7_merge_ordering_witness :
    ∃ wc wa wp wk,
      (skillLists envQuietWeb "docker").1.courses =
        search_by_skill envQuietWeb.store "docker" ResourceType.course ++ wc ∧
      (skillLists envQuietWeb "docker").1.articles =
        search_by_skill envQuietWeb.store "docker" ResourceType.article ++ wa ∧
      (skillLists envQuietWeb "docker").1.projects =
        search_by_skill envQuietWeb.store "docker" ResourceType.project ++ wp ∧
      (skillLists envQuietWeb "docker").1.competitions =
        search_by_skill envQuietWeb.store "docker"
          ResourceType.competition ++ wk ∧
      ((∃ wr, WebSearcher.find_resources_for_skill
            ((fun _ => emptyWebEnv) "docker") "docker" =
            Except.ok wr ∧ wc = wr.courses ∧ wa = wr.articles ∧
            wp = wr.projects ∧ wk = wr.competitions) ∨
        (wc = [] ∧ wa = [] ∧ wp = [] ∧ wk = [])) :=
  C7_merge_ordering envQuietWeb (fun _ => emptyWebEnv) "docker" rfl

end HR
